import Mathlib

/-!
# Authentication core of the budgeting app

A shallow embedding of `internal/features/auth` (service and HTTP handlers)
and `internal/shared/middleware` (session gate and CSRF gate), followed by the
properties proved about them.

Conventions of the embedding:

* a Go result pair `(*T, error)` is an `Except Error T`: `.error e` stands for
  `(nil, e)` and `.ok v` for `(&v, nil)`;
* `generateSessionToken` keeps the Go pair `(string, error)` as
  `String × Option Error`, because one caller reads the string and drops the
  error;
* the database is reached through the record `Queries`, whose operations act
  on an explicit store state;
* the clock, the secure random source and bcrypt are inputs of the operations
  that read them;
* bytes are natural numbers below 256.
-/

namespace Auth

/-! ## Errors -/

/-- Error values: the three sentinels of `service.go`, the driver's
`pgx.ErrNoRows`, a server-side error carrying an SQLSTATE code, any other
error, and an error wrapping another one. -/
inductive Error where
  | ErrInvalidCredentials : Error
  | ErrUserExists : Error
  | ErrInvalidSession : Error
  | ErrNoRows : Error
  | PgError (code : String) (message : String) : Error
  | other (message : String) : Error
  | wrap (message : String) (inner : Error) : Error
  deriving DecidableEq, Repr

/-- Go's `errors.Is`: the target is the error itself or is reached by
unwrapping it. -/
def errorsIs : Error → Error → Bool
  | .wrap m inner, target => decide (Error.wrap m inner = target) || errorsIs inner target
  | err, target => decide (err = target)

/-- Equality of results is decidable when it is for errors and values. -/
instance instDecidableEqExcept {ε α : Type} [DecidableEq ε] [DecidableEq α] :
    DecidableEq (Except ε α)
  | .ok a, .ok b => if h : a = b then isTrue (by rw [h]) else isFalse (fun h2 => h (by cases h2; rfl))
  | .error a, .error b =>
    if h : a = b then isTrue (by rw [h]) else isFalse (fun h2 => h (by cases h2; rfl))
  | .ok _, .error _ => isFalse (fun h => by cases h)
  | .error _, .ok _ => isFalse (fun h => by cases h)

/-! ## Constants -/

/-- One second, in nanoseconds (`time.Second`). -/
def Second : Nat := 1000000000

/-- One hour, in nanoseconds (`time.Hour`). -/
def Hour : Nat := 3600 * Second

/-- SessionDuration defines how long a session is valid: 7 days. -/
def SessionDuration : Nat := 7 * 24 * Hour

/-- BcryptCost defines the bcrypt hashing cost. -/
def BcryptCost : Nat := 12

def SessionCookieName : String := "session_token"
def CSRFCookieName : String := "csrf_token"
def CSRFHeaderName : String := "X-CSRF-Token"
def CookiePath : String := "/"
def CookieSecure : Bool := false
def CookieHTTPOnly : Bool := true

/-- Values of `http.SameSite`; `SameSiteLaxMode` is 2, and 0 is what a
context holds before `SetSameSite` is called. -/
def SameSiteLaxMode : Nat := 2
def CookieSameSite : Nat := SameSiteLaxMode

def StatusOK : Nat := 200
def StatusCreated : Nat := 201
def StatusBadRequest : Nat := 400
def StatusUnauthorized : Nat := 401
def StatusForbidden : Nat := 403
def StatusConflict : Nat := 409
def StatusInternalServerError : Nat := 500

/-! ## Hex encoding (`encoding/hex`) -/

/-- The digit table of `encoding/hex`. -/
def hextable : List Char :=
  ['0', '1', '2', '3', '4', '5', '6', '7', '8', '9', 'a', 'b', 'c', 'd', 'e', 'f']

/-- Encode one byte `v`: `hextable[v>>4]` then `hextable[v&0x0f]`. -/
def encodeByte (v : Nat) : List Char :=
  [hextable.getD (v % 256 / 16) '0', hextable.getD (v % 16) '0']

/-- Encode a byte slice as a list of hex digits, two per byte. -/
def Encode : List Nat → List Char
  | [] => []
  | v :: rest => encodeByte v ++ Encode rest

/-- Go's `hex.EncodeToString`. -/
def EncodeToString (src : List Nat) : String := String.mk (Encode src)

/-- Go's `fromHexChar`, on the lower-case digits the encoder emits and on the
upper-case ones the decoder also accepts. -/
def fromHexChar (c : Char) : Option Nat :=
  if '0' ≤ c ∧ c ≤ '9' then some (c.toNat - '0'.toNat)
  else if 'a' ≤ c ∧ c ≤ 'f' then some (c.toNat - 'a'.toNat + 10)
  else if 'A' ≤ c ∧ c ≤ 'F' then some (c.toNat - 'A'.toNat + 10)
  else none

/-- Decode a list of hex digits, two per byte; an odd length or a character
that is not a hex digit is an error. -/
def Decode : List Char → Option (List Nat)
  | [] => some []
  | [_] => none
  | a :: b :: rest =>
    match fromHexChar a, fromHexChar b, Decode rest with
    | some x, some y, some bs => some ((x * 16 + y) :: bs)
    | _, _, _ => none

/-- Go's `hex.DecodeString`. -/
def DecodeString (s : String) : Option (List Nat) := Decode s.data

/-! ## The secure random source -/

/-- What the secure random source delivers to one `rand.Read` call: a failure,
or the bytes it has available. -/
abbrev RandSource := Except Error (List Nat)

/-- Go's `rand.Read` on a buffer of `n` bytes: the buffer is filled entirely
or the call fails (a source that runs short fails with an unexpected-EOF
error). -/
def randRead (src : RandSource) (n : Nat) : Except Error (List Nat) :=
  match src with
  | .error err => .error err
  | .ok bs =>
    if bs.length < n then .error (.other "unexpected EOF")
    else .ok ((bs.take n).map (· % 256))

/-- generateSessionToken creates a cryptographically secure random token. -/
def generateSessionToken (src : RandSource) : String × Option Error :=
  match randRead src 32 with
  | .error err => ("", some err)
  | .ok bytes => (EncodeToString bytes, none)

/-! ## Data model -/

/-- The driver's `pgtype.UUID`: 16 bytes and a validity flag. -/
structure UUID where
  Bytes : List Nat
  Valid : Bool
  deriving DecidableEq, Repr

/-- The driver's `pgtype.Timestamptz`: an instant (nanoseconds) and a validity
flag. -/
structure Timestamptz where
  Time : Nat
  Valid : Bool
  deriving DecidableEq, Repr

/-- A row of the users table, as far as the service reads it. -/
structure User where
  ID : UUID
  Email : String
  PasswordHash : String
  deriving DecidableEq, Repr

/-- A row of the sessions table. -/
structure Session where
  UserID : UUID
  Token : String
  ExpiresAt : Timestamptz
  deriving DecidableEq, Repr

/-- A session row joined with its owning user. -/
structure GetSessionByTokenRow where
  UserID : UUID
  Token : String
  ExpiresAt : Timestamptz
  UserID_2 : UUID
  UserEmail : String
  deriving DecidableEq, Repr

structure CreateUserParams where
  Email : String
  PasswordHash : String
  deriving DecidableEq, Repr

structure CreateSessionParams where
  UserID : UUID
  Token : String
  ExpiresAt : Timestamptz
  deriving DecidableEq, Repr

/-- AuthUser represents authenticated user data returned by the service. -/
structure AuthUser where
  ID : String
  Email : String
  deriving DecidableEq, Repr

/-- RegisterParams contains the input for user registration. -/
structure RegisterParams where
  Email : String
  Password : String
  deriving DecidableEq, Repr

/-- LoginParams contains the input for user login. -/
structure LoginParams where
  Email : String
  Password : String
  deriving DecidableEq, Repr

/-- LoginResult contains the result of a successful login. -/
structure LoginResult where
  User : AuthUser
  SessionToken : String
  deriving DecidableEq, Repr

/-- Queries defines the database operations needed by the auth service, each
acting on a store state of type `σ`. -/
structure Queries (σ : Type) where
  CreateUser : CreateUserParams → σ → Except Error User × σ
  GetUserByEmail : String → σ → Except Error User × σ
  CreateSession : CreateSessionParams → σ → Except Error Session × σ
  GetSessionByToken : String → σ → Except Error GetSessionByTokenRow × σ
  DeleteSession : String → σ → Option Error × σ

/-- The two bcrypt functions the service calls. `GenerateFromPassword` takes
the password, the cost and the salt drawn for this call;
`CompareHashAndPassword` takes the digest and the password and yields `none`
when they agree. -/
structure Bcrypt where
  GenerateFromPassword : String → Nat → Nat → Except Error String
  CompareHashAndPassword : String → String → Option Error

/-! ## The service (`service.go`) -/

/-- The Go slice expression `b[i:j]`. -/
def slice (b : List Nat) (i j : Nat) : List Nat := (b.drop i).take (j - i)

/-- formatUUID converts a pgtype.UUID to a string. -/
def formatUUID (u : UUID) : String :=
  if !u.Valid then ""
  else
    EncodeToString (slice u.Bytes 0 4) ++ "-" ++
    EncodeToString (slice u.Bytes 4 6) ++ "-" ++
    EncodeToString (slice u.Bytes 6 8) ++ "-" ++
    EncodeToString (slice u.Bytes 8 10) ++ "-" ++
    EncodeToString (slice u.Bytes 10 16)

/-- Register creates a new user with hashed password. -/
def service.Register {σ : Type} (q : Queries σ) (b : Bcrypt) (salt : Nat)
    (params : RegisterParams) (s : σ) : Except Error AuthUser × σ :=
  -- Check if user already exists
  match q.GetUserByEmail params.Email s with
  | (.ok _, s1) => (.error .ErrUserExists, s1)
  | (.error err, s1) =>
    if !errorsIs err .ErrNoRows then (.error err, s1)
    else
      -- Hash password
      match b.GenerateFromPassword params.Password BcryptCost salt with
      | .error err => (.error err, s1)
      | .ok hashedPassword =>
        -- Create user
        match q.CreateUser ⟨params.Email, hashedPassword⟩ s1 with
        | (.error err, s2) => (.error err, s2)
        | (.ok user, s2) => (.ok ⟨formatUUID user.ID, user.Email⟩, s2)

/-- Login authenticates a user and creates a session. `now` is the reading of
`time.Now()` and `src` is what the random source delivers to this call. -/
def service.Login {σ : Type} (q : Queries σ) (b : Bcrypt) (now : Nat) (src : RandSource)
    (params : LoginParams) (s : σ) : Except Error LoginResult × σ :=
  -- Get user by email
  match q.GetUserByEmail params.Email s with
  | (.error err, s1) =>
    if errorsIs err .ErrNoRows then (.error .ErrInvalidCredentials, s1)
    else (.error err, s1)
  | (.ok user, s1) =>
    -- Verify password
    match b.CompareHashAndPassword user.PasswordHash params.Password with
    | some _ => (.error .ErrInvalidCredentials, s1)
    | none =>
      -- Generate session token
      match generateSessionToken src with
      | (_, some err) => (.error err, s1)
      | (token, none) =>
        -- Create session
        let expiresAt := now + SessionDuration
        match q.CreateSession ⟨user.ID, token, ⟨expiresAt, true⟩⟩ s1 with
        | (.error err, s2) => (.error err, s2)
        | (.ok _, s2) => (.ok ⟨⟨formatUUID user.ID, user.Email⟩, token⟩, s2)

/-- Logout invalidates a session. -/
def service.Logout {σ : Type} (q : Queries σ) (sessionToken : String) (s : σ) :
    Option Error × σ :=
  q.DeleteSession sessionToken s

/-- ValidateSession validates a session token and returns the user. -/
def service.ValidateSession {σ : Type} (q : Queries σ) (sessionToken : String) (s : σ) :
    Except Error AuthUser × σ :=
  match q.GetSessionByToken sessionToken s with
  | (.error err, s1) =>
    if errorsIs err .ErrNoRows then (.error .ErrInvalidSession, s1)
    else (.error err, s1)
  | (.ok session, s1) => (.ok ⟨formatUUID session.UserID_2, session.UserEmail⟩, s1)

/-! ## The request context (the part of gin the handlers use) -/

/-- An inbound request: method, cookies by name (values as `c.Cookie` returns
them) and headers by name. -/
structure Request where
  Method : String
  Cookies : List (String × String)
  Header : List (String × String)
  deriving DecidableEq, Repr

/-- A `Set-Cookie` entry of the response. -/
structure Cookie where
  Name : String
  Value : String
  MaxAge : Int
  Path : String
  Domain : String
  Secure : Bool
  HttpOnly : Bool
  SameSite : Nat
  deriving DecidableEq, Repr

/-- Values stored under the context keys. -/
inductive Value where
  | user (u : AuthUser) : Value
  | str (v : String) : Value
  | bool (v : Bool) : Value
  deriving DecidableEq, Repr

/-- The JSON objects (`gin.H`) the handlers answer with. -/
inductive Body where
  | error (msg : String) : Body
  | message (msg : String) : Body
  | messageUser (msg : String) (user : AuthUser) : Body
  | user (v : Value) : Body
  deriving DecidableEq, Repr

/-- The gin context of one request: the request, the key/value bag, the
same-site mode for cookies, whether the chain was aborted, and the response
written so far. -/
structure Context where
  Request : Auth.Request
  Keys : List (String × Value)
  sameSite : Nat
  aborted : Bool
  status : Option Nat
  body : Option Body
  setCookies : List Cookie
  deriving DecidableEq, Repr

/-- A fresh context for a request. -/
def Context.new (r : Auth.Request) : Context :=
  { Request := r, Keys := [], sameSite := 0, aborted := false, status := none, body := none,
    setCookies := [] }

/-- The call `c.Cookie(name)`: `none` stands for the error it returns when the
request has no cookie of that name. -/
def Context.Cookie (c : Context) (name : String) : Option String :=
  c.Request.Cookies.lookup name

/-- The call `c.GetHeader(key)`: the empty string when the request has no such
header. -/
def Context.GetHeader (c : Context) (key : String) : String :=
  (c.Request.Header.lookup key).getD ""

/-- The call `c.Set(key, value)`. -/
def Context.Set (c : Context) (key : String) (value : Value) : Context :=
  { c with Keys := (key, value) :: c.Keys.filter (fun kv => kv.1 != key) }

/-- The call `c.Get(key)`. -/
def Context.Get (c : Context) (key : String) : Option Value :=
  c.Keys.lookup key

/-- The call `c.JSON(code, obj)`. -/
def Context.JSON (c : Context) (code : Nat) (obj : Body) : Context :=
  { c with status := some code, body := some obj }

/-- The call `c.AbortWithStatusJSON(code, obj)`: no later handler of the chain
runs. -/
def Context.AbortWithStatusJSON (c : Context) (code : Nat) (obj : Body) : Context :=
  { c with aborted := true, status := some code, body := some obj }

/-- The call `c.SetSameSite(mode)`. -/
def Context.SetSameSite (c : Context) (mode : Nat) : Context :=
  { c with sameSite := mode }

/-- The call `c.SetCookie(name, value, maxAge, path, domain, secure, httpOnly)`. -/
def Context.SetCookie (c : Context) (name value : String) (maxAge : Int) (path domain : String)
    (secure httpOnly : Bool) : Context :=
  { c with setCookies := c.setCookies ++
      [⟨name, value, maxAge, path, domain, secure, httpOnly, c.sameSite⟩] }

/-- Run a chain of handlers in order, as gin does: a handler that aborts stops
the chain. A handler ending in `c.Next()` is one that returns without
aborting. -/
def runChain {σ : Type} : List (Context → σ → Context × σ) → Context → σ → Context × σ
  | [], c, s => (c, s)
  | h :: rest, c, s =>
    match h c s with
    | (c1, s1) => if c1.aborted then (c1, s1) else runChain rest c1 s1

/-! ## The handlers (`handler.go`) -/

/-- RegisterRequest represents the register request body. -/
structure RegisterRequest where
  Email : String
  Password : String
  deriving DecidableEq, Repr

/-- LoginRequest represents the login request body. -/
structure LoginRequest where
  Email : String
  Password : String
  deriving DecidableEq, Repr

/-- Register handles user registration. `bound` is the outcome of
`c.ShouldBindJSON(&req)`. -/
def Handler.Register {σ : Type} (q : Queries σ) (b : Bcrypt) (salt : Nat)
    (bound : Except String RegisterRequest) (c : Context) (s : σ) : Context × σ :=
  match bound with
  | .error err => (c.JSON StatusBadRequest (.error err), s)
  | .ok req =>
    match service.Register q b salt ⟨req.Email, req.Password⟩ s with
    | (.error err, s1) =>
      if errorsIs err .ErrUserExists then
        (c.JSON StatusConflict (.error "User already exists"), s1)
      else (c.JSON StatusInternalServerError (.error "Failed to register user"), s1)
    | (.ok user, s1) =>
      (c.JSON StatusCreated (.messageUser "User registered successfully" user), s1)

/-- Login handles user login. `src` feeds the token generation inside
`service.Login`, `csrfSrc` the one for the CSRF token. -/
def Handler.Login {σ : Type} (q : Queries σ) (b : Bcrypt) (now : Nat) (src csrfSrc : RandSource)
    (bound : Except String LoginRequest) (c : Context) (s : σ) : Context × σ :=
  match bound with
  | .error err => (c.JSON StatusBadRequest (.error err), s)
  | .ok req =>
    match service.Login q b now src ⟨req.Email, req.Password⟩ s with
    | (.error err, s1) =>
      if errorsIs err .ErrInvalidCredentials then
        (c.JSON StatusUnauthorized (.error "Invalid email or password"), s1)
      else (c.JSON StatusInternalServerError (.error "Failed to login"), s1)
    | (.ok result, s1) =>
      -- Set session cookie (HttpOnly)
      let c1 := c.SetSameSite CookieSameSite
      let c2 := c1.SetCookie SessionCookieName result.SessionToken
        (Int.ofNat (SessionDuration / Second)) CookiePath "" CookieSecure CookieHTTPOnly
      -- Set CSRF token cookie; the error of the generator is dropped
      let csrfToken := (generateSessionToken csrfSrc).1
      let c3 := c2.SetCookie CSRFCookieName csrfToken
        (Int.ofNat (SessionDuration / Second)) CookiePath "" CookieSecure false
      (c3.JSON StatusOK (.messageUser "Login successful" result.User), s1)

/-- Logout handles user logout. -/
def Handler.Logout {σ : Type} (q : Queries σ) (c : Context) (s : σ) : Context × σ :=
  match c.Cookie SessionCookieName with
  | none => (c.JSON StatusOK (.message "Already logged out"), s)
  | some token =>
    -- Invalidate session in database; an error is ignored
    match service.Logout q token s with
    | (_, s1) =>
      -- Clear cookies
      let c1 := c.SetCookie SessionCookieName "" (-1) CookiePath "" CookieSecure CookieHTTPOnly
      let c2 := c1.SetCookie CSRFCookieName "" (-1) CookiePath "" CookieSecure false
      (c2.JSON StatusOK (.message "Logged out successfully"), s1)

/-- Me returns the current authenticated user. -/
def Handler.Me (c : Context) : Context :=
  -- User should be set by auth middleware
  match c.Get "user" with
  | none => c.JSON StatusUnauthorized (.error "Not authenticated")
  | some user => c.JSON StatusOK (.user user)

/-! ## The middleware (`middleware/auth.go`, `middleware/csrf.go`) -/

/-- SessionAuth creates a middleware that validates session tokens. -/
def SessionAuth {σ : Type} (q : Queries σ) (c : Context) (s : σ) : Context × σ :=
  match c.Cookie SessionCookieName with
  | none => (c.AbortWithStatusJSON StatusUnauthorized (.error "Authentication required"), s)
  | some token =>
    match service.ValidateSession q token s with
    | (.error _, s1) =>
      (c.AbortWithStatusJSON StatusUnauthorized (.error "Invalid or expired session"), s1)
    | (.ok user, s1) =>
      -- Store user in context for handlers
      (((c.Set "user" (.user user)).Set "userID" (.str user.ID)), s1)

/-- OptionalSessionAuth validates session tokens but does not require them. -/
def OptionalSessionAuth {σ : Type} (q : Queries σ) (c : Context) (s : σ) : Context × σ :=
  match c.Cookie SessionCookieName with
  | none => (c, s)
  | some token =>
    match service.ValidateSession q token s with
    | (.error _, s1) => (c, s1)
    | (.ok user, s1) => (((c.Set "user" (.user user)).Set "userID" (.str user.ID)), s1)

/-- CSRF validates CSRF tokens using the Double Submit Cookie pattern. -/
def CSRF (c : Context) : Context :=
  -- Skip CSRF validation for safe methods
  if c.Request.Method = "GET" ∨ c.Request.Method = "HEAD" ∨ c.Request.Method = "OPTIONS" then c
  else
    -- Get CSRF token from cookie
    match c.Cookie CSRFCookieName with
    | none => c.AbortWithStatusJSON StatusForbidden (.error "CSRF token missing from cookie")
    | some cookieToken =>
      -- Get CSRF token from header
      let headerToken := c.GetHeader CSRFHeaderName
      if headerToken = "" then
        c.AbortWithStatusJSON StatusForbidden (.error "CSRF token missing from header")
      else if cookieToken ≠ headerToken then
        c.AbortWithStatusJSON StatusForbidden (.error "CSRF token mismatch")
      else c

/-- CSRFExempt marks routes as exempt from CSRF validation. -/
def CSRFExempt (c : Context) : Context := c.Set "csrfExempt" (.bool true)

/-- The chain `RegisterRoutes` installs for `GET /auth/me`: the session gate,
then `Handler.Me`. -/
def meRoute {σ : Type} (q : Queries σ) : List (Context → σ → Context × σ) :=
  [SessionAuth q, fun c s => (Handler.Me c, s)]

/-! ## The store (package `database`)

The generated query package and its SQL are external to the files embedded
above; the service only sees them through `Queries`. The definitions of this
section give one implementation of `Queries`, an in-memory store, following the
store contract of the specification. -/

/-- A record of one call to the store. -/
inductive Call where
  | CreateUser (email : String) : Call
  | GetUserByEmail (email : String) : Call
  | CreateSession (token : String) : Call
  | GetSessionByToken (token : String) : Call
  | DeleteSession (token : String) : Call
  deriving DecidableEq, Repr

/-- Modelled from the spec: the persistent state behind the store adapter
(the `database` package and its tables are missing): the user rows, the
session rows, the store's clock, the counter from which the next user id is
made, and the calls received so far. -/
structure Store where
  users : List User
  sessions : List Session
  now : Nat
  nextID : Nat
  calls : List Call
  deriving DecidableEq, Repr

/-- The empty store at time `now`. -/
def Store.empty (now : Nat) : Store :=
  { users := [], sessions := [], now := now, nextID := 0, calls := [] }

/-- Modelled from the spec: the server-generated identifier of a user (made
by the missing store): for the `n`-th user the 16 bytes of `n`, most
significant first. -/
def uuidOfNat (n : Nat) : UUID :=
  ⟨(List.range 16).map (fun i => n / 256 ^ (15 - i) % 256), true⟩

/-- Modelled from the spec: the `ConflictError` with which the missing store
signals a uniqueness conflict (SQLSTATE 23505, unique_violation). -/
def ConflictError : Error := .PgError "23505" "duplicate key value violates unique constraint"

/-- Modelled from the spec: the missing store operation
`CreateUser(email, passwordHash) -> User | ConflictError`; exactly one user row
per email is enforced by the store, and the id is server-generated. -/
def Store.CreateUser (arg : CreateUserParams) (s : Store) : Except Error User × Store :=
  let s1 := { s with calls := s.calls ++ [Call.CreateUser arg.Email] }
  if s.users.any (fun u => u.Email == arg.Email) then (.error ConflictError, s1)
  else
    let user : User := ⟨uuidOfNat s.nextID, arg.Email, arg.PasswordHash⟩
    (.ok user, { s1 with users := s.users ++ [user], nextID := s.nextID + 1 })

/-- Modelled from the spec: the missing store operation
`GetUserByEmail(email) -> User | NotFoundError`. -/
def Store.GetUserByEmail (email : String) (s : Store) : Except Error User × Store :=
  let s1 := { s with calls := s.calls ++ [Call.GetUserByEmail email] }
  match s.users.find? (fun u => u.Email == email) with
  | some user => (.ok user, s1)
  | none => (.error .ErrNoRows, s1)

/-- Modelled from the spec: the missing store operation
`CreateSession(userID, token, expiresAt) -> Session`; the token is unique, which
the store enforces as a hard constraint. -/
def Store.CreateSession (arg : CreateSessionParams) (s : Store) : Except Error Session × Store :=
  let s1 := { s with calls := s.calls ++ [Call.CreateSession arg.Token] }
  if s.sessions.any (fun r => r.Token == arg.Token) then (.error ConflictError, s1)
  else
    let session : Session := ⟨arg.UserID, arg.Token, arg.ExpiresAt⟩
    (.ok session, { s1 with sessions := s.sessions ++ [session] })

/-- Modelled from the spec: the missing store operation
`GetSessionByToken(token) -> (Session, owning User fields) | NotFoundError`,
which must exclude expired rows: a row counts while the store's clock is before
its `expires_at`. -/
def Store.GetSessionByToken (token : String) (s : Store) :
    Except Error GetSessionByTokenRow × Store :=
  let s1 := { s with calls := s.calls ++ [Call.GetSessionByToken token] }
  match s.sessions.find?
      (fun r => r.Token == token && (r.ExpiresAt.Valid && decide (s.now < r.ExpiresAt.Time))) with
  | none => (.error .ErrNoRows, s1)
  | some r =>
    match s.users.find? (fun u => u.ID == r.UserID) with
    | none => (.error .ErrNoRows, s1)
    | some u => (.ok ⟨r.UserID, r.Token, r.ExpiresAt, u.ID, u.Email⟩, s1)

/-- Modelled from the spec: the missing store operation
`DeleteSession(token) -> success`, idempotent: deleting a token that does not
exist is success. -/
def Store.DeleteSession (token : String) (s : Store) : Option Error × Store :=
  (none, { s with sessions := s.sessions.filter (fun r => r.Token != token),
                  calls := s.calls ++ [Call.DeleteSession token] })

/-- Modelled from the spec: the store adapter (the `database` package is
missing) as an implementation of `Queries` over the in-memory store. -/
def memQueries : Queries Store :=
  { CreateUser := Store.CreateUser
    GetUserByEmail := Store.GetUserByEmail
    CreateSession := Store.CreateSession
    GetSessionByToken := Store.GetSessionByToken
    DeleteSession := Store.DeleteSession }

/-- The store as one request sees it when another request commits `other`
between this request's email lookup and its next call (the check and the
insert of `Register` are not one transaction). -/
def concurrentAfterLookup {σ : Type} (q : Queries σ) (other : σ → σ) : Queries σ :=
  { q with GetUserByEmail := fun email s =>
      match q.GetUserByEmail email s with
      | (r, s1) => (r, other s1) }

/-! ## Runs of the service over the in-memory store -/

/-- One event in the life of the system: a service call with the inputs it
draws from its environment, or the passing of `d` nanoseconds. -/
inductive Op where
  | register (params : RegisterParams) (salt : Nat) : Op
  | login (params : LoginParams) (src : RandSource) : Op
  | logout (token : String) : Op
  | validate (token : String) : Op
  | tick (d : Nat) : Op

/-- The store after one event; the service reads the store's clock. -/
def step (b : Bcrypt) (op : Op) (s : Store) : Store :=
  match op with
  | .register params salt => (service.Register memQueries b salt params s).2
  | .login params src => (service.Login memQueries b s.now src params s).2
  | .logout token => (service.Logout memQueries token s).2
  | .validate token => (service.ValidateSession memQueries token s).2
  | .tick d => { s with now := s.now + d }

/-- The store after a sequence of events. -/
def run (b : Bcrypt) : List Op → Store → Store
  | [], s => s
  | op :: ops, s => run b ops (step b op s)

/-- The event is a logout of `token`. -/
def Op.isLogoutOf (token : String) : Op → Bool
  | .logout t => t == token
  | _ => false

/-- The event is a login whose random draw yields `token`. -/
def Op.draws (token : String) : Op → Bool
  | .login _ src => (generateSessionToken src).1 == token
  | _ => false

/-- User ids of the store are pairwise distinct. -/
def Store.idsDistinct (s : Store) : Prop := (s.users.map (fun u => u.ID)).Nodup

/-- A sample bcrypt, for worked examples: the digest is the password after a
`$` sign. -/
def sampleBcrypt : Bcrypt :=
  { GenerateFromPassword := fun password _ _ => .ok ("$" ++ password)
    CompareHashAndPassword := fun hash password =>
      if hash = "$" ++ password then none else some (.other "hash mismatch") }

/-- Thirty-two sample bytes of the random source. -/
def sampleBytes : List Nat := List.range 32

/-- The sample account of the end-to-end scenario. -/
def sampleEmail : String := "user@test.local"

/-- The password of the sample account. -/
def samplePassword : String := "Pass1234!"

/-- The store after the sample account has registered on an empty store. -/
def sampleStore : Store :=
  (service.Register memQueries sampleBcrypt 0 ⟨sampleEmail, samplePassword⟩ (Store.empty 0)).2

/-- A POST request without cookies or headers. -/
def barePost : Context := Context.new ⟨"POST", [], []⟩

/-- A GET request without cookies or headers. -/
def bareGet : Context := Context.new ⟨"GET", [], []⟩

/-- A POST request carrying a session cookie. -/
def postWithSession : Context := Context.new ⟨"POST", [("session_token", "ab12")], []⟩

/-- A store adapter whose session deletion always fails. -/
def failingDelete : Queries Store :=
  { memQueries with DeleteSession := fun _ s => (some (.other "connection lost"), s) }

/-- A concurrent registration of the sample email that commits its insert. -/
def rivalInsert (s : Store) : Store := (Store.CreateUser ⟨sampleEmail, "$rival"⟩ s).2

/-- The response cookie that clears the session cookie. -/
def clearedSessionCookie (sameSite : Nat) : Cookie :=
  ⟨SessionCookieName, "", -1, CookiePath, "", CookieSecure, CookieHTTPOnly, sameSite⟩

/-- The response cookie that clears the CSRF cookie. -/
def clearedCSRFCookie (sameSite : Nat) : Cookie :=
  ⟨CSRFCookieName, "", -1, CookiePath, "", CookieSecure, false, sameSite⟩

/-- The session rows of the store that carry `token`. -/
def Store.rowsOf (s : Store) (token : String) : List Session :=
  s.sessions.filter (fun r => r.Token == token)

/-- A POST whose cookie and header carry the same token. -/
def csrfMatching : Context :=
  Context.new ⟨"POST", [("csrf_token", "ab12")], [("X-CSRF-Token", "ab12")]⟩

/-- A POST whose cookie and header carry different tokens. -/
def csrfMismatch : Context :=
  Context.new ⟨"POST", [("csrf_token", "ab12")], [("X-CSRF-Token", "ab13")]⟩

/-- A GET without any CSRF token. -/
def csrfSafe : Context := Context.new ⟨"GET", [], []⟩

/-- The token made of the sample bytes. -/
def sampleToken : String := "000102030405060708090a0b0c0d0e0f101112131415161718191a1b1c1d1e1f"

/-- The public view of the sample account. -/
def sampleUser : AuthUser := ⟨"00000000-0000-0000-0000-000000000000", sampleEmail⟩

/-- The store after the sample account has logged in at time 0, drawing the
sample bytes. -/
def sampleSession : Store :=
  (service.Login memQueries sampleBcrypt 0 (.ok sampleBytes) ⟨sampleEmail, samplePassword⟩
    sampleStore).2

/-! ## Properties: token format -/

theorem Encode_length (bs : List Nat) : (Encode bs).length = 2 * bs.length := by
  induction bs with
  | nil => rfl
  | cons v rest ih => simp [Encode, encodeByte, ih]; omega

theorem hextable_getD_mem (i : Nat) : hextable.getD i '0' ∈ hextable := by
  by_cases h : i < 16
  · interval_cases i <;> decide
  · have : hextable.getD i '0' = '0' := by
      have hlen : hextable.length ≤ i := by simp [hextable]; omega
      simp [List.getD, List.getElem?_eq_none hlen]
    rw [this]; decide

theorem Encode_mem_hextable (bs : List Nat) : ∀ c ∈ Encode bs, c ∈ hextable := by
  induction bs with
  | nil => intro c hc; simp [Encode] at hc
  | cons v rest ih =>
    intro c hc
    simp only [Encode, encodeByte, List.mem_append, List.mem_cons, List.mem_singleton,
      List.not_mem_nil, or_false] at hc
    rcases hc with (rfl | rfl) | hc
    · exact hextable_getD_mem _
    · exact hextable_getD_mem _
    · exact ih c hc

theorem fromHexChar_hextable (i : Nat) (h : i < 16) :
    fromHexChar (hextable.getD i '0') = some i := by
  interval_cases i <;> decide

theorem Decode_Encode (bs : List Nat) (h : ∀ b ∈ bs, b < 256) : Decode (Encode bs) = some bs := by
  induction bs with
  | nil => rfl
  | cons v rest ih =>
    have hv : v < 256 := h v (List.mem_cons_self _ _)
    have hrest := ih (fun b hb => h b (List.mem_cons_of_mem _ hb))
    have h3 : v % 256 = v := Nat.mod_eq_of_lt hv
    have h1 : v / 16 < 16 := by omega
    have h2 : v % 16 < 16 := by omega
    have h4 : v / 16 * 16 + v % 16 = v := by omega
    simp only [Encode, encodeByte, h3, List.cons_append, List.nil_append, Decode,
      fromHexChar_hextable _ h1, fromHexChar_hextable _ h2, List.append_eq, hrest, h4]

theorem randRead_ok {src : RandSource} {n : Nat} {bytes : List Nat}
    (h : randRead src n = .ok bytes) : bytes.length = n ∧ ∀ b ∈ bytes, b < 256 := by
  unfold randRead at h
  split at h
  · cases h
  · rename_i bs
    split at h
    · cases h
    · rename_i hlen
      injection h with h
      subst h
      constructor
      · simp; omega
      · intro b hb
        simp only [List.mem_map] at hb
        obtain ⟨a, _, rfl⟩ := hb
        exact Nat.mod_lt _ (by decide)

theorem generateSessionToken_of_read {src : RandSource} {bytes : List Nat}
    (h : randRead src 32 = .ok bytes) :
    generateSessionToken src = (EncodeToString bytes, none) := by
  simp [generateSessionToken, h]

theorem EncodeToString_length_of_read {src : RandSource} {bytes : List Nat}
    (h : randRead src 32 = .ok bytes) : (EncodeToString bytes).length = 64 := by
  simp [EncodeToString, String.length, Encode_length, (randRead_ok h).1]

/-- C10: when the random source fills the 32-byte buffer, generateSessionToken
returns the hex encoding of exactly those 32 bytes with no error: a string of
64 characters, each one of `0-9a-f`, which decodes back to the bytes, so that
two successful draws giving the same token drew the same bytes; when the random
source fails, it returns that error together with the empty string. -/
theorem generateSessionToken_format (src : RandSource) :
    (∀ bytes, randRead src 32 = .ok bytes →
      generateSessionToken src = (EncodeToString bytes, none) ∧
      bytes.length = 32 ∧
      (EncodeToString bytes).length = 64 ∧
      (∀ ch ∈ (EncodeToString bytes).data, ch ∈ hextable) ∧
      DecodeString (EncodeToString bytes) = some bytes ∧
      (∀ src2 bytes2, randRead src2 32 = .ok bytes2 →
        (generateSessionToken src2).1 = (generateSessionToken src).1 → bytes2 = bytes)) ∧
    (∀ err, randRead src 32 = .error err → generateSessionToken src = ("", some err)) := by
  refine ⟨?_, ?_⟩
  · intro bytes h
    obtain ⟨hlen, hlt⟩ := randRead_ok h
    have hdec : DecodeString (EncodeToString bytes) = some bytes := Decode_Encode bytes hlt
    refine ⟨by simp [generateSessionToken, h], hlen, ?_, ?_, hdec, ?_⟩
    · simp [EncodeToString, String.length, Encode_length, hlen]
    · exact Encode_mem_hextable bytes
    · intro src2 bytes2 h2 heq
      obtain ⟨_, hlt2⟩ := randRead_ok h2
      have hdec2 : DecodeString (EncodeToString bytes2) = some bytes2 := Decode_Encode bytes2 hlt2
      simp only [generateSessionToken, h, h2] at heq
      rw [heq, hdec] at hdec2
      exact (Option.some.inj hdec2).symm
  · intro err h
    simp [generateSessionToken, h]

/-- The token format at a sample draw, and the failure case at a failing
source. -/
theorem generateSessionToken_format_witness :
    randRead (.ok sampleBytes) 32 = .ok sampleBytes ∧
    generateSessionToken (.ok sampleBytes) =
      ("000102030405060708090a0b0c0d0e0f101112131415161718191a1b1c1d1e1f", none) ∧
    (EncodeToString sampleBytes).length = 64 ∧
    generateSessionToken (.error (.other "entropy unavailable")) =
      ("", some (.other "entropy unavailable")) :=
  ⟨by decide,
   ((generateSessionToken_format (.ok sampleBytes)).1 sampleBytes (by decide)).1.trans (by decide),
   ((generateSessionToken_format (.ok sampleBytes)).1 sampleBytes (by decide)).2.2.1,
   (generateSessionToken_format (.error (.other "entropy unavailable"))).2 _ (by decide)⟩

/-! ## Properties: the CSRF gate -/

/-- C1: the CSRF middleware lets every request with method GET, HEAD or OPTIONS
proceed untouched, whatever its csrf_token cookie and X-CSRF-Token header; for
every other method it aborts with 403 when the cookie is missing, when the
header is missing (the header value reads as the empty string), or when the two
values differ, and lets the request proceed untouched when the cookie value
equals the header value. -/
theorem CSRF_decision (c : Context) :
    ((c.Request.Method = "GET" ∨ c.Request.Method = "HEAD" ∨ c.Request.Method = "OPTIONS") →
      CSRF c = c) ∧
    (¬ (c.Request.Method = "GET" ∨ c.Request.Method = "HEAD" ∨ c.Request.Method = "OPTIONS") →
      (c.Cookie CSRFCookieName = none →
        (CSRF c).aborted = true ∧ (CSRF c).status = some StatusForbidden) ∧
      (c.GetHeader CSRFHeaderName = "" →
        (CSRF c).aborted = true ∧ (CSRF c).status = some StatusForbidden) ∧
      (∀ cookieToken, c.Cookie CSRFCookieName = some cookieToken →
        cookieToken ≠ c.GetHeader CSRFHeaderName →
        (CSRF c).aborted = true ∧ (CSRF c).status = some StatusForbidden) ∧
      (∀ cookieToken, c.Cookie CSRFCookieName = some cookieToken →
        c.GetHeader CSRFHeaderName ≠ "" → cookieToken = c.GetHeader CSRFHeaderName →
        CSRF c = c)) := by
  refine ⟨fun hsafe => by simp [CSRF, hsafe], fun hunsafe => ⟨?_, ?_, ?_, ?_⟩⟩
  · intro hc
    simp [CSRF, hunsafe, hc, Context.AbortWithStatusJSON]
  · intro hh
    cases hc : c.Cookie CSRFCookieName <;>
      simp [CSRF, hunsafe, hc, hh, Context.AbortWithStatusJSON]
  · intro cookieToken hc hne
    by_cases hh : c.GetHeader CSRFHeaderName = "" <;>
      simp [CSRF, hunsafe, hc, hh, hne, Context.AbortWithStatusJSON]
  · intro cookieToken hc hh heq
    simp [CSRF, hunsafe, hc, hh, heq]

/-- The CSRF gate on three sample requests: a bare GET passes, a POST with
matching tokens passes, a POST with differing tokens is aborted with 403. -/
theorem CSRF_decision_witness :
    CSRF csrfSafe = csrfSafe ∧ CSRF csrfMatching = csrfMatching ∧
    ((CSRF csrfMismatch).aborted = true ∧ (CSRF csrfMismatch).status = some StatusForbidden) :=
  ⟨(CSRF_decision csrfSafe).1 (by decide),
   ((CSRF_decision csrfMatching).2 (by decide)).2.2.2 "ab12" (by decide) (by decide) (by decide),
   ((CSRF_decision csrfMismatch).2 (by decide)).2.2.1 "ab12" (by decide) (by decide)⟩

/-! ## Properties: login failures -/

/-- C2: Login does not distinguish an unknown email from a wrong password: when
the store reports no user for the email, and when the password does not verify
against the digest of the user found, Login returns the same error
ErrInvalidCredentials and no result; Handler.Login then answers both with the
same 401 response. -/
theorem Login_same_error {σ : Type} (q : Queries σ) (b : Bcrypt) (now : Nat) (src csrfSrc : RandSource)
    (params : LoginParams) (c : Context) (s : σ) :
    (∀ err s1, q.GetUserByEmail params.Email s = (.error err, s1) →
      errorsIs err .ErrNoRows = true →
      service.Login q b now src params s = (.error .ErrInvalidCredentials, s1) ∧
      Handler.Login q b now src csrfSrc (.ok ⟨params.Email, params.Password⟩) c s =
        (c.JSON StatusUnauthorized (.error "Invalid email or password"), s1)) ∧
    (∀ user e s1, q.GetUserByEmail params.Email s = (.ok user, s1) →
      b.CompareHashAndPassword user.PasswordHash params.Password = some e →
      service.Login q b now src params s = (.error .ErrInvalidCredentials, s1) ∧
      Handler.Login q b now src csrfSrc (.ok ⟨params.Email, params.Password⟩) c s =
        (c.JSON StatusUnauthorized (.error "Invalid email or password"), s1)) := by
  refine ⟨?_, ?_⟩
  · intro err s1 hq herr
    have hl : service.Login q b now src params s = (.error .ErrInvalidCredentials, s1) := by
      simp [service.Login, hq, herr]
    have hl2 : service.Login q b now src ⟨params.Email, params.Password⟩ s =
        (.error .ErrInvalidCredentials, s1) := hl
    refine ⟨hl, ?_⟩
    simp only [Handler.Login, hl2]
    simp [errorsIs]
  · intro user e s1 hq hcmp
    have hl : service.Login q b now src params s = (.error .ErrInvalidCredentials, s1) := by
      simp [service.Login, hq, hcmp]
    have hl2 : service.Login q b now src ⟨params.Email, params.Password⟩ s =
        (.error .ErrInvalidCredentials, s1) := hl
    refine ⟨hl, ?_⟩
    simp only [Handler.Login, hl2]
    simp [errorsIs]

/-- Login on the sample store: an unknown email and a wrong password for the
sample account give the same error. -/
theorem Login_same_error_witness :
    (service.Login memQueries sampleBcrypt 0 (.ok sampleBytes) ⟨"nobody@test.local", "x"⟩
      sampleStore).1 = .error .ErrInvalidCredentials ∧
    (service.Login memQueries sampleBcrypt 0 (.ok sampleBytes) ⟨sampleEmail, "wrong"⟩
      sampleStore).1 = .error .ErrInvalidCredentials :=
  ⟨congrArg Prod.fst (((Login_same_error memQueries sampleBcrypt 0 (.ok sampleBytes)
      (.ok sampleBytes) ⟨"nobody@test.local", "x"⟩ barePost sampleStore).1
      .ErrNoRows _ rfl (by decide)).1),
   congrArg Prod.fst (((Login_same_error memQueries sampleBcrypt 0 (.ok sampleBytes)
      (.ok sampleBytes) ⟨sampleEmail, "wrong"⟩ barePost sampleStore).2
      _ (.other "hash mismatch") _ rfl (by decide)).1)⟩

/-! ## Properties: a conflict at insert time -/

/-- C5, as the code has it: when the lookup by email reports not-found, the
password hashes, and CreateUser then fails, Register returns the error of
CreateUser unchanged, whatever it is (for a uniqueness conflict, the store's
conflict error); Handler.Register answers 409 exactly when that error is, or
wraps, ErrUserExists, and 500 otherwise. -/
theorem Register_insert_error {σ : Type} (q : Queries σ) (b : Bcrypt) (salt : Nat)
    (params : RegisterParams) (c : Context) (s s1 s2 : σ) (err0 err : Error) (hashed : String)
    (hlookup : q.GetUserByEmail params.Email s = (.error err0, s1))
    (hnotfound : errorsIs err0 .ErrNoRows = true)
    (hhash : b.GenerateFromPassword params.Password BcryptCost salt = .ok hashed)
    (hinsert : q.CreateUser ⟨params.Email, hashed⟩ s1 = (.error err, s2)) :
    service.Register q b salt params s = (.error err, s2) ∧
    Handler.Register q b salt (.ok ⟨params.Email, params.Password⟩) c s =
      (if errorsIs err .ErrUserExists then c.JSON StatusConflict (.error "User already exists")
       else c.JSON StatusInternalServerError (.error "Failed to register user"), s2) := by
  have hr : service.Register q b salt params s = (.error err, s2) := by
    simp [service.Register, hlookup, hnotfound, hhash, hinsert]
  have hr2 : service.Register q b salt ⟨params.Email, params.Password⟩ s = (.error err, s2) := hr
  refine ⟨hr, ?_⟩
  simp only [Handler.Register, hr2]
  split <;> rfl

/-- The race on the sample email: the lookup of this request finds nothing, a
rival request commits its insert, and this request's insert conflicts. -/
theorem Register_insert_error_witness :
    service.Register (concurrentAfterLookup memQueries rivalInsert) sampleBcrypt 0
      ⟨sampleEmail, samplePassword⟩ (Store.empty 0) =
      (.error ConflictError,
        (Store.CreateUser ⟨sampleEmail, "$Pass1234!"⟩
          (rivalInsert (Store.GetUserByEmail sampleEmail (Store.empty 0)).2)).2) :=
  (Register_insert_error (concurrentAfterLookup memQueries rivalInsert) sampleBcrypt 0
    ⟨sampleEmail, samplePassword⟩ barePost (Store.empty 0) _ _ .ErrNoRows ConflictError
    "$Pass1234!" rfl (by decide) rfl rfl).1

/-- C5 fails on the code: in the race on the sample email the lookup reports
not-found and the insert fails with the store's uniqueness conflict, yet
Register returns that conflict error, which is not ErrUserExists, and
Handler.Register answers 500. -/
theorem Register_conflict_not_mapped :
    ((concurrentAfterLookup memQueries rivalInsert).GetUserByEmail sampleEmail
      (Store.empty 0)).1 = .error .ErrNoRows ∧
    ((concurrentAfterLookup memQueries rivalInsert).CreateUser ⟨sampleEmail, "$Pass1234!"⟩
      ((concurrentAfterLookup memQueries rivalInsert).GetUserByEmail sampleEmail
        (Store.empty 0)).2).1 = .error ConflictError ∧
    (service.Register (concurrentAfterLookup memQueries rivalInsert) sampleBcrypt 0
      ⟨sampleEmail, samplePassword⟩ (Store.empty 0)).1 ≠ .error .ErrUserExists ∧
    (Handler.Register (concurrentAfterLookup memQueries rivalInsert) sampleBcrypt 0
      (.ok ⟨sampleEmail, samplePassword⟩) barePost (Store.empty 0)).1.status =
      some StatusInternalServerError := by
  decide

/-! ## Properties: the session gate -/

/-- C7: SessionAuth aborts with 401, so that no later handler of the chain
runs, when the session_token cookie is missing and when ValidateSession returns
any error; otherwise it stores the AuthUser returned by ValidateSession under
"user" and its ID under "userID", leaves the response untouched and lets the
chain go on. Hence GET /auth/me without a session cookie answers 401. -/
theorem SessionAuth_required {σ : Type} (q : Queries σ) (c : Context) (s : σ)
    (rest : List (Context → σ → Context × σ)) :
    (c.Cookie SessionCookieName = none →
      SessionAuth q c s =
        (c.AbortWithStatusJSON StatusUnauthorized (.error "Authentication required"), s) ∧
      runChain (SessionAuth q :: rest) c s = SessionAuth q c s ∧
      (runChain (meRoute q) c s).1.status = some StatusUnauthorized) ∧
    (∀ token err s1, c.Cookie SessionCookieName = some token →
      service.ValidateSession q token s = (.error err, s1) →
      SessionAuth q c s =
        (c.AbortWithStatusJSON StatusUnauthorized (.error "Invalid or expired session"), s1) ∧
      runChain (SessionAuth q :: rest) c s = SessionAuth q c s) ∧
    (∀ token user s1, c.Cookie SessionCookieName = some token →
      service.ValidateSession q token s = (.ok user, s1) →
      (SessionAuth q c s).2 = s1 ∧
      (SessionAuth q c s).1.Get "user" = some (.user user) ∧
      (SessionAuth q c s).1.Get "userID" = some (.str user.ID) ∧
      (SessionAuth q c s).1.aborted = c.aborted ∧
      (SessionAuth q c s).1.status = c.status ∧
      (SessionAuth q c s).1.body = c.body ∧
      (c.aborted = false →
        runChain (SessionAuth q :: rest) c s = runChain rest (SessionAuth q c s).1 s1)) := by
  refine ⟨?_, ?_, ?_⟩
  · intro hc
    have h1 : SessionAuth q c s =
        (c.AbortWithStatusJSON StatusUnauthorized (.error "Authentication required"), s) := by
      simp [SessionAuth, hc]
    refine ⟨h1, ?_, ?_⟩
    · simp [runChain, h1, Context.AbortWithStatusJSON]
    · simp [meRoute, runChain, h1, Context.AbortWithStatusJSON]
  · intro token err s1 hc hv
    have h1 : SessionAuth q c s =
        (c.AbortWithStatusJSON StatusUnauthorized (.error "Invalid or expired session"), s1) := by
      simp [SessionAuth, hc, hv]
    refine ⟨h1, ?_⟩
    simp [runChain, h1, Context.AbortWithStatusJSON]
  · intro token user s1 hc hv
    have h1 : SessionAuth q c s =
        (((c.Set "user" (.user user)).Set "userID" (.str user.ID)), s1) := by
      simp [SessionAuth, hc, hv]
    refine ⟨by rw [h1], ?_, ?_, by rw [h1]; rfl, by rw [h1]; rfl, by rw [h1]; rfl, ?_⟩
    · rw [h1]
      simp [Context.Get, Context.Set, List.lookup]
    · rw [h1]
      simp [Context.Get, Context.Set, List.lookup]
    · intro hab
      have hab2 : ((c.Set "user" (.user user)).Set "userID" (.str user.ID)).aborted = false := hab
      simp [runChain, h1, hab2]

/-- The session gate in front of Me on a GET without cookies, and on a GET
whose session cookie the sample store does not know. -/
theorem SessionAuth_required_witness :
    (runChain (meRoute memQueries) bareGet sampleStore).1.status = some StatusUnauthorized ∧
    (SessionAuth memQueries (Context.new ⟨"GET", [("session_token", "ab12")], []⟩)
      sampleStore).1.status = some StatusUnauthorized :=
  ⟨((SessionAuth_required memQueries bareGet sampleStore []).1 (by decide)).2.2,
   congrArg (fun r => r.1.status)
     (((SessionAuth_required memQueries (Context.new ⟨"GET", [("session_token", "ab12")], []⟩)
       sampleStore []).2.1 "ab12" .ErrInvalidSession _ (by decide) rfl).1)⟩

/-! ## Properties: logout -/

/-- C8, as the code has it: the Logout handler always answers 200; when the
request carries a session cookie it adds to the response the session_token
cookie and the csrf_token cookie with the empty value and max-age -1, whatever
the store answers to the deletion; when the request carries no session cookie
it answers "Already logged out", sets no cookie and leaves the store alone. -/
theorem Logout_always_ok {σ : Type} (q : Queries σ) (c : Context) (s : σ) :
    (Handler.Logout q c s).1.status = some StatusOK ∧
    (∀ token, c.Cookie SessionCookieName = some token →
      (Handler.Logout q c s).1.setCookies =
        c.setCookies ++ [clearedSessionCookie c.sameSite, clearedCSRFCookie c.sameSite] ∧
      (Handler.Logout q c s).2 = (service.Logout q token s).2) ∧
    (c.Cookie SessionCookieName = none →
      Handler.Logout q c s = (c.JSON StatusOK (.message "Already logged out"), s)) := by
  cases hc : c.Cookie SessionCookieName with
  | none => simp [Handler.Logout, hc, Context.JSON]
  | some token =>
    simp [Handler.Logout, hc, Context.JSON, Context.SetCookie, clearedSessionCookie,
      clearedCSRFCookie]

/-- Logout with a session cookie over a store whose deletion fails: 200, and
both cookies are cleared. -/
theorem Logout_always_ok_witness :
    (Handler.Logout failingDelete postWithSession sampleStore).1.status = some StatusOK ∧
    (Handler.Logout failingDelete postWithSession sampleStore).1.setCookies =
      [clearedSessionCookie 0, clearedCSRFCookie 0] :=
  ⟨(Logout_always_ok failingDelete postWithSession sampleStore).1,
   ((Logout_always_ok failingDelete postWithSession sampleStore).2.1 "ab12" (by decide)).1⟩

/-- C8 fails on the code: a logout request without a session cookie is answered
200 with no cookie set, so neither the session_token nor the csrf_token cookie
is cleared. -/
theorem Logout_without_cookie_clears_nothing :
    (Handler.Logout memQueries barePost sampleStore).1.status = some StatusOK ∧
    (Handler.Logout memQueries barePost sampleStore).1.setCookies = [] := by
  decide

/-! ## Properties: failure of the random source -/

/-- C9 at the failing input: when the random source fails inside service.Login
the login fails with that error, but when it fails at the CSRF token of
Handler.Login, after a successful service.Login, the handler still answers 200
and issues a csrf_token cookie with the empty value. -/
theorem Login_csrf_token_empty_on_rand_failure :
    (service.Login memQueries sampleBcrypt 0 (.error (.other "entropy unavailable"))
      ⟨sampleEmail, samplePassword⟩ sampleStore).1 = .error (.other "entropy unavailable") ∧
    (Handler.Login memQueries sampleBcrypt 0 (.ok sampleBytes)
      (.error (.other "entropy unavailable")) (.ok ⟨sampleEmail, samplePassword⟩)
      barePost sampleStore).1.status = some StatusOK ∧
    (Handler.Login memQueries sampleBcrypt 0 (.ok sampleBytes)
      (.error (.other "entropy unavailable")) (.ok ⟨sampleEmail, samplePassword⟩)
      barePost sampleStore).1.setCookies =
      [⟨"session_token", "000102030405060708090a0b0c0d0e0f101112131415161718191a1b1c1d1e1f",
          604800, "/", "", false, true, 2⟩,
       ⟨"csrf_token", "", 604800, "/", "", false, false, 2⟩] := by
  decide

/-! ## The service over the in-memory store -/

theorem find?_none_any {α : Type} (p : α → Bool) (l : List α) (h : l.find? p = none) :
    l.any p = false := by
  induction l with
  | nil => rfl
  | cons a t ih =>
    simp only [List.find?_cons] at h
    cases hp : p a
    · rw [hp] at h
      simp [List.any_cons, hp, ih h]
    · rw [hp] at h
      cases h

/-- Register over the in-memory store, spelled out. -/
theorem Register_mem (b : Bcrypt) (salt : Nat) (params : RegisterParams) (s : Store) :
    service.Register memQueries b salt params s =
      match s.users.find? (fun u => u.Email == params.Email) with
      | some _ =>
        (.error .ErrUserExists, { s with calls := s.calls ++ [Call.GetUserByEmail params.Email] })
      | none =>
        match b.GenerateFromPassword params.Password BcryptCost salt with
        | .error err =>
          (.error err, { s with calls := s.calls ++ [Call.GetUserByEmail params.Email] })
        | .ok hashed =>
          (.ok ⟨formatUUID (uuidOfNat s.nextID), params.Email⟩,
            { s with
              users := s.users ++ [⟨uuidOfNat s.nextID, params.Email, hashed⟩]
              nextID := s.nextID + 1
              calls := s.calls ++ [Call.GetUserByEmail params.Email] ++
                [Call.CreateUser params.Email] }) := by
  cases hf : s.users.find? (fun u => u.Email == params.Email) with
  | some u => simp [service.Register, memQueries, Store.GetUserByEmail, hf]
  | none =>
    have hany := find?_none_any _ _ hf
    cases hg : b.GenerateFromPassword params.Password BcryptCost salt with
    | error err => simp [service.Register, memQueries, Store.GetUserByEmail, hf, hg, errorsIs]
    | ok hashed =>
      simp [service.Register, memQueries, Store.GetUserByEmail, Store.CreateUser, hf, hg,
        errorsIs, hany]

/-- Login over the in-memory store, spelled out. -/
theorem Login_mem (b : Bcrypt) (now : Nat) (src : RandSource) (params : LoginParams) (s : Store) :
    service.Login memQueries b now src params s =
      match s.users.find? (fun u => u.Email == params.Email) with
      | none =>
        (.error .ErrInvalidCredentials,
          { s with calls := s.calls ++ [Call.GetUserByEmail params.Email] })
      | some user =>
        match b.CompareHashAndPassword user.PasswordHash params.Password with
        | some _ =>
          (.error .ErrInvalidCredentials,
            { s with calls := s.calls ++ [Call.GetUserByEmail params.Email] })
        | none =>
          match generateSessionToken src with
          | (_, some err) =>
            (.error err, { s with calls := s.calls ++ [Call.GetUserByEmail params.Email] })
          | (token, none) =>
            if s.sessions.any (fun r => r.Token == token) then
              (.error ConflictError,
                { s with calls := s.calls ++ [Call.GetUserByEmail params.Email] ++
                    [Call.CreateSession token] })
            else
              (.ok ⟨⟨formatUUID user.ID, user.Email⟩, token⟩,
                { s with
                  sessions := s.sessions ++ [⟨user.ID, token, ⟨now + SessionDuration, true⟩⟩]
                  calls := s.calls ++ [Call.GetUserByEmail params.Email] ++
                    [Call.CreateSession token] }) := by
  cases hf : s.users.find? (fun u => u.Email == params.Email) with
  | none => simp [service.Login, memQueries, Store.GetUserByEmail, hf, errorsIs]
  | some user =>
    cases hc : b.CompareHashAndPassword user.PasswordHash params.Password with
    | some e => simp [service.Login, memQueries, Store.GetUserByEmail, hf, hc]
    | none =>
      rcases hg : generateSessionToken src with ⟨token, _ | err⟩
      · by_cases hany : s.sessions.any (fun r => r.Token == token) = true
        · simp [service.Login, memQueries, Store.GetUserByEmail, Store.CreateSession, hf, hc, hg,
            hany]
        · simp [service.Login, memQueries, Store.GetUserByEmail, Store.CreateSession, hf, hc, hg,
            hany]
      · simp [service.Login, memQueries, Store.GetUserByEmail, hf, hc, hg]

/-- ValidateSession over the in-memory store, spelled out. -/
theorem ValidateSession_mem (token : String) (s : Store) :
    (service.ValidateSession memQueries token s).1 =
      match s.sessions.find? (fun r =>
        r.Token == token && (r.ExpiresAt.Valid && decide (s.now < r.ExpiresAt.Time))) with
      | none => .error .ErrInvalidSession
      | some r =>
        match s.users.find? (fun u => u.ID == r.UserID) with
        | none => .error .ErrInvalidSession
        | some u => .ok ⟨formatUUID u.ID, u.Email⟩ := by
  cases hf : s.sessions.find? (fun r =>
      r.Token == token && (r.ExpiresAt.Valid && decide (s.now < r.ExpiresAt.Time))) with
  | none => simp [service.ValidateSession, memQueries, Store.GetSessionByToken, hf, errorsIs]
  | some r =>
    cases hu : s.users.find? (fun u => u.ID == r.UserID) with
    | none => simp [service.ValidateSession, memQueries, Store.GetSessionByToken, hf, hu, errorsIs]
    | some u => simp [service.ValidateSession, memQueries, Store.GetSessionByToken, hf, hu]

theorem find?_append_singleton_of_none {α : Type} (p : α → Bool) (l : List α) (a : α)
    (h : l.find? p = none) (ha : p a = true) : (l ++ [a]).find? p = some a := by
  simp [List.find?_append, h, List.find?_cons, ha]

theorem filter_nil_of_find?_none {α : Type} (p : α → Bool) (l : List α) (h : l.find? p = none) :
    l.filter p = [] := by
  rw [List.filter_eq_nil_iff]
  intro a ha
  have := List.find?_eq_none.mp h a ha
  simpa using this

/-! ## Properties: registering twice, and login after register -/

/-- C4: on a store that has no user with email e, and with a password hash
that succeeds, Register(e, p1) followed by Register(e, p2) returns first the
AuthUser of a new user with email e and then ErrUserExists; the second call
makes one call to the store, the lookup by email, and no CreateUser, so the
user rows are those left by the first call, and exactly one of them has email
e. -/
theorem Register_twice (b : Bcrypt) (salt1 salt2 : Nat) (e p1 p2 hashed : String) (s : Store)
    (hnone : s.users.find? (fun u => u.Email == e) = none)
    (hhash : b.GenerateFromPassword p1 BcryptCost salt1 = .ok hashed) :
    (service.Register memQueries b salt1 ⟨e, p1⟩ s).1 =
      .ok ⟨formatUUID (uuidOfNat s.nextID), e⟩ ∧
    (service.Register memQueries b salt1 ⟨e, p1⟩ s).2.users =
      s.users ++ [⟨uuidOfNat s.nextID, e, hashed⟩] ∧
    (service.Register memQueries b salt2 ⟨e, p2⟩
      (service.Register memQueries b salt1 ⟨e, p1⟩ s).2).1 = .error .ErrUserExists ∧
    (service.Register memQueries b salt2 ⟨e, p2⟩
      (service.Register memQueries b salt1 ⟨e, p1⟩ s).2).2.calls =
      (service.Register memQueries b salt1 ⟨e, p1⟩ s).2.calls ++ [Call.GetUserByEmail e] ∧
    (service.Register memQueries b salt2 ⟨e, p2⟩
      (service.Register memQueries b salt1 ⟨e, p1⟩ s).2).2.users =
      (service.Register memQueries b salt1 ⟨e, p1⟩ s).2.users ∧
    ((service.Register memQueries b salt2 ⟨e, p2⟩
      (service.Register memQueries b salt1 ⟨e, p1⟩ s).2).2.users.filter
        (fun u => u.Email == e)).length = 1 := by
  have h1 : service.Register memQueries b salt1 ⟨e, p1⟩ s =
      (.ok ⟨formatUUID (uuidOfNat s.nextID), e⟩,
        { s with
          users := s.users ++ [⟨uuidOfNat s.nextID, e, hashed⟩]
          nextID := s.nextID + 1
          calls := s.calls ++ [Call.GetUserByEmail e] ++ [Call.CreateUser e] }) := by
    rw [Register_mem]
    simp only [hnone, hhash]
  have hfound : (s.users ++ [(⟨uuidOfNat s.nextID, e, hashed⟩ : User)]).find?
      (fun u => u.Email == e) = some ⟨uuidOfNat s.nextID, e, hashed⟩ :=
    find?_append_singleton_of_none _ _ _ hnone (by simp)
  rw [h1]
  refine ⟨rfl, rfl, ?_, ?_, ?_, ?_⟩
  · rw [Register_mem]
    simp only [hfound]
  · rw [Register_mem]
    simp only [hfound]
  · rw [Register_mem]
    simp only [hfound]
  · rw [Register_mem]
    simp only [hfound]
    simp [List.filter_append, filter_nil_of_find?_none _ _ hnone]

/-- Registering the sample email twice on the empty store. -/
theorem Register_twice_witness :
    (service.Register memQueries sampleBcrypt 0 ⟨sampleEmail, samplePassword⟩ (Store.empty 0)).1 =
      .ok ⟨"00000000-0000-0000-0000-000000000000", sampleEmail⟩ ∧
    (service.Register memQueries sampleBcrypt 1 ⟨sampleEmail, "Other5678!"⟩ sampleStore).1 =
      .error .ErrUserExists :=
  ⟨(Register_twice sampleBcrypt 0 1 sampleEmail samplePassword "Other5678!" "$Pass1234!"
      (Store.empty 0) rfl rfl).1.trans (by decide),
   (Register_twice sampleBcrypt 0 1 sampleEmail samplePassword "Other5678!" "$Pass1234!"
      (Store.empty 0) rfl rfl).2.2.1⟩

/-- C6: with a bcrypt whose comparison accepts every digest it generated for
the same password, if Register(e, p) succeeds on the store, the random source
then fills the token buffer and the store holds no session with that token, the
following Login(e, p) succeeds and returns the AuthUser that Register returned
(same id, same email) together with the token, which is the 64-character hex
encoding of the bytes drawn. -/
theorem Login_after_Register (b : Bcrypt)
    (hverify : ∀ password cost salt digest, b.GenerateFromPassword password cost salt = .ok digest →
      b.CompareHashAndPassword digest password = none)
    (salt now : Nat) (src : RandSource) (e p : String) (s s1 : Store) (user : AuthUser)
    (bytes : List Nat)
    (hreg : service.Register memQueries b salt ⟨e, p⟩ s = (.ok user, s1))
    (hrand : randRead src 32 = .ok bytes)
    (hfresh : s1.sessions.any (fun r => r.Token == EncodeToString bytes) = false) :
    (service.Login memQueries b now src ⟨e, p⟩ s1).1 = .ok ⟨user, EncodeToString bytes⟩ ∧
    user.Email = e ∧
    (EncodeToString bytes).length = 64 := by
  have hgen := generateSessionToken_of_read hrand
  rw [Register_mem] at hreg
  cases hf : s.users.find? (fun u => u.Email == e) with
  | some u => simp [hf] at hreg
  | none =>
    cases hg : b.GenerateFromPassword p BcryptCost salt with
    | error err => simp [hf, hg] at hreg
    | ok hashed =>
      simp only [hf, hg, Prod.mk.injEq, Except.ok.injEq] at hreg
      obtain ⟨hu, hs1⟩ := hreg
      subst hu
      have hfound : s1.users.find? (fun u => u.Email == e) =
          some ⟨uuidOfNat s.nextID, e, hashed⟩ := by
        rw [← hs1]
        exact find?_append_singleton_of_none _ _ _ hf (by simp)
      have hcmp := hverify p BcryptCost salt hashed hg
      refine ⟨?_, rfl, EncodeToString_length_of_read hrand⟩
      rw [Login_mem]
      simp only [hfound, hcmp, hgen, hfresh]
      simp

/-- Login after Register for the sample account on the empty store. -/
theorem Login_after_Register_witness :
    (service.Login memQueries sampleBcrypt 5 (.ok sampleBytes) ⟨sampleEmail, samplePassword⟩
      sampleStore).1 =
      .ok ⟨⟨"00000000-0000-0000-0000-000000000000", sampleEmail⟩,
        "000102030405060708090a0b0c0d0e0f101112131415161718191a1b1c1d1e1f"⟩ :=
  (Login_after_Register sampleBcrypt
    (fun password _ _ digest h => by
      simp only [sampleBcrypt, Except.ok.injEq] at h
      simp [sampleBcrypt, h])
    0 5 (.ok sampleBytes) sampleEmail samplePassword (Store.empty 0) sampleStore
    ⟨"00000000-0000-0000-0000-000000000000", sampleEmail⟩ sampleBytes
    (by decide) (by decide) (by decide)).1.trans (by decide)

/-! ## Frame lemmas for runs over the in-memory store -/

theorem Register_mem_state (b : Bcrypt) (salt : Nat) (params : RegisterParams) (s : Store) :
    (service.Register memQueries b salt params s).2.sessions = s.sessions ∧
    (service.Register memQueries b salt params s).2.now = s.now ∧
    ∃ extra, (service.Register memQueries b salt params s).2.users = s.users ++ extra := by
  rw [Register_mem]
  cases s.users.find? (fun u => u.Email == params.Email) with
  | some u => exact ⟨rfl, rfl, [], by simp⟩
  | none =>
    cases b.GenerateFromPassword params.Password BcryptCost salt with
    | error err => exact ⟨rfl, rfl, [], by simp⟩
    | ok hashed => exact ⟨rfl, rfl, _, rfl⟩

theorem Login_mem_state (b : Bcrypt) (now : Nat) (src : RandSource) (params : LoginParams)
    (s : Store) :
    (service.Login memQueries b now src params s).2.users = s.users ∧
    (service.Login memQueries b now src params s).2.now = s.now ∧
    ((service.Login memQueries b now src params s).2.sessions = s.sessions ∨
      (s.sessions.any (fun r => r.Token == (generateSessionToken src).1) = false ∧
        ∃ uid, (service.Login memQueries b now src params s).2.sessions =
          s.sessions ++ [⟨uid, (generateSessionToken src).1, ⟨now + SessionDuration, true⟩⟩])) := by
  rw [Login_mem]
  cases s.users.find? (fun u => u.Email == params.Email) with
  | none => exact ⟨rfl, rfl, Or.inl rfl⟩
  | some user =>
    dsimp only
    cases b.CompareHashAndPassword user.PasswordHash params.Password with
    | some e => exact ⟨rfl, rfl, Or.inl rfl⟩
    | none =>
      dsimp only
      rcases hg : generateSessionToken src with ⟨token, _ | err⟩
      · dsimp only
        by_cases hany : s.sessions.any (fun r => r.Token == token) = true
        · rw [if_pos hany]
          exact ⟨rfl, rfl, Or.inl rfl⟩
        · have hany2 : s.sessions.any (fun r => r.Token == token) = false := by
            simpa using hany
          rw [if_neg hany]
          exact ⟨rfl, rfl, Or.inr ⟨hany2, user.ID, rfl⟩⟩
      · exact ⟨rfl, rfl, Or.inl rfl⟩

theorem ValidateSession_mem_state (token : String) (s : Store) :
    (service.ValidateSession memQueries token s).2 =
      { s with calls := s.calls ++ [Call.GetSessionByToken token] } := by
  cases hf : s.sessions.find? (fun r =>
      r.Token == token && (r.ExpiresAt.Valid && decide (s.now < r.ExpiresAt.Time))) with
  | none => simp [service.ValidateSession, memQueries, Store.GetSessionByToken, hf, errorsIs]
  | some r =>
    cases hu : s.users.find? (fun u => u.ID == r.UserID) with
    | none => simp [service.ValidateSession, memQueries, Store.GetSessionByToken, hf, hu, errorsIs]
    | some u => simp [service.ValidateSession, memQueries, Store.GetSessionByToken, hf, hu]

theorem step_users (b : Bcrypt) (op : Op) (s : Store) :
    ∃ extra, (step b op s).users = s.users ++ extra := by
  cases op with
  | register params salt => exact (Register_mem_state b salt params s).2.2
  | login params src => exact ⟨[], by simp [step, (Login_mem_state b s.now src params s).1]⟩
  | logout token => exact ⟨[], by simp [step, service.Logout, memQueries, Store.DeleteSession]⟩
  | validate token => exact ⟨[], by simp [step, ValidateSession_mem_state]⟩
  | tick d => exact ⟨[], by simp [step]⟩

theorem step_now (b : Bcrypt) (op : Op) (s : Store) : s.now ≤ (step b op s).now := by
  cases op with
  | register params salt => simp [step, (Register_mem_state b salt params s).2.1]
  | login params src => simp [step, (Login_mem_state b s.now src params s).2.1]
  | logout token => simp [step, service.Logout, memQueries, Store.DeleteSession]
  | validate token => simp [step, ValidateSession_mem_state]
  | tick d => simp [step]

theorem filter_nil_of_any_false {α : Type} (p : α → Bool) (l : List α) (h : l.any p = false) :
    l.filter p = [] := by
  rw [List.filter_eq_nil_iff]
  intro a ha hp
  have : l.any p = true := List.any_eq_true.mpr ⟨a, ha, hp⟩
  rw [h] at this
  cases this

/-- While a row with the token exists and the event is not a logout of the
token, the rows with the token stay as they are. -/
theorem step_rows_live (b : Bcrypt) (token : String) (op : Op) (s : Store)
    (hop : op.isLogoutOf token = false) (hlive : s.rowsOf token ≠ []) :
    (step b op s).rowsOf token = s.rowsOf token := by
  cases op with
  | register params salt => simp [step, Store.rowsOf, (Register_mem_state b salt params s).1]
  | login params src =>
    rcases (Login_mem_state b s.now src params s).2.2 with h | ⟨hany, uid, h⟩
    · simp [step, Store.rowsOf, h]
    · by_cases ht : (generateSessionToken src).1 = token
      · rw [ht] at hany
        exact absurd (filter_nil_of_any_false _ _ hany) hlive
      · simp [step, Store.rowsOf, h, List.filter_append, ht]
  | logout t =>
    have hne : t ≠ token := by simpa [Op.isLogoutOf] using hop
    simp only [step, service.Logout, memQueries, Store.DeleteSession, Store.rowsOf,
      List.filter_filter]
    apply List.filter_congr
    intro r _
    by_cases hr : r.Token = token
    · simp [hr, Ne.symm hne]
    · simp [hr]
  | validate t => simp [step, Store.rowsOf, ValidateSession_mem_state]
  | tick d => simp [step, Store.rowsOf]

/-- While no row with the token exists and the event is not a login drawing
the token, no row with the token appears. -/
theorem step_rows_dead (b : Bcrypt) (token : String) (op : Op) (s : Store)
    (hop : op.draws token = false) (hdead : s.rowsOf token = []) :
    (step b op s).rowsOf token = [] := by
  cases op with
  | register params salt =>
    simpa [step, Store.rowsOf, (Register_mem_state b salt params s).1] using hdead
  | login params src =>
    have hne : (generateSessionToken src).1 ≠ token := by simpa [Op.draws] using hop
    rcases (Login_mem_state b s.now src params s).2.2 with h | ⟨_, uid, h⟩
    · simpa [step, Store.rowsOf, h] using hdead
    · have hdead2 : s.sessions.filter (fun r => r.Token == token) = [] := hdead
      simp [step, Store.rowsOf, h, List.filter_append, hdead2, hne]
  | logout t =>
    have hdead2 : s.sessions.filter (fun r => r.Token == token) = [] := hdead
    simp only [step, service.Logout, memQueries, Store.DeleteSession, Store.rowsOf]
    rw [List.filter_eq_nil_iff] at hdead2 ⊢
    intro r hr
    exact hdead2 r (List.mem_filter.mp hr).1
  | validate t => simpa [step, Store.rowsOf, ValidateSession_mem_state] using hdead
  | tick d => simpa [step, Store.rowsOf] using hdead

theorem step_logout_rows (b : Bcrypt) (token : String) (s : Store) :
    (step b (.logout token) s).rowsOf token = [] := by
  simp only [step, service.Logout, memQueries, Store.DeleteSession, Store.rowsOf,
    List.filter_filter]
  rw [List.filter_eq_nil_iff]
  intro r _
  by_cases hr : r.Token = token <;> simp [hr]

theorem run_append (b : Bcrypt) (ops1 ops2 : List Op) (s : Store) :
    run b (ops1 ++ ops2) s = run b ops2 (run b ops1 s) := by
  induction ops1 generalizing s with
  | nil => rfl
  | cons op rest ih => simp [run, ih]

theorem run_live (b : Bcrypt) (token : String) (ops : List Op) (s : Store)
    (hops : ∀ op ∈ ops, op.isLogoutOf token = false) (hlive : s.rowsOf token ≠ []) :
    (run b ops s).rowsOf token = s.rowsOf token ∧ s.now ≤ (run b ops s).now ∧
    ∃ extra, (run b ops s).users = s.users ++ extra := by
  induction ops generalizing s with
  | nil => exact ⟨rfl, le_refl _, [], by simp [run]⟩
  | cons op rest ih =>
    have hstep := step_rows_live b token op s (hops op (List.mem_cons_self _ _)) hlive
    have hlive2 : (step b op s).rowsOf token ≠ [] := by rw [hstep]; exact hlive
    obtain ⟨h1, h2, extra, h3⟩ :=
      ih (step b op s) (fun o ho => hops o (List.mem_cons_of_mem _ ho)) hlive2
    obtain ⟨extra0, h4⟩ := step_users b op s
    refine ⟨by simp only [run]; rw [h1, hstep], le_trans (step_now b op s) h2,
      extra0 ++ extra, ?_⟩
    simp only [run]
    rw [h3, h4, List.append_assoc]

theorem run_dead (b : Bcrypt) (token : String) (ops : List Op) (s : Store)
    (hops : ∀ op ∈ ops, op.draws token = false) (hdead : s.rowsOf token = []) :
    (run b ops s).rowsOf token = [] := by
  induction ops generalizing s with
  | nil => exact hdead
  | cons op rest ih =>
    exact ih (step b op s) (fun o ho => hops o (List.mem_cons_of_mem _ ho))
      (step_rows_dead b token op s (hops op (List.mem_cons_self _ _)) hdead)

theorem find?_and_filter {α : Type} (p q : α → Bool) (l : List α) :
    l.find? (fun r => p r && q r) = (l.filter p).find? q := by
  induction l with
  | nil => rfl
  | cons a t ih =>
    cases hp : p a <;> cases hq : q a <;>
      simp [-List.find?_filter, List.find?_cons, List.filter_cons, hp, hq, ih]

theorem find?_id_of_nodup (l : List User) (u : User) (hnd : (l.map (fun x => x.ID)).Nodup)
    (hu : u ∈ l) : l.find? (fun x => x.ID == u.ID) = some u := by
  induction l with
  | nil => cases hu
  | cons a t ih =>
    simp only [List.map_cons, List.nodup_cons] at hnd
    rcases List.mem_cons.mp hu with rfl | hmem
    · simp [List.find?_cons]
    · have hne : a.ID ≠ u.ID := by
        intro heq
        apply hnd.1
        rw [heq]
        exact List.mem_map.mpr ⟨u, hmem, rfl⟩
      simp [List.find?_cons, hne, ih hnd.2 hmem]

/-- Validation of a token none of whose rows is in the store. -/
theorem ValidateSession_dead (token : String) (s : Store) (hdead : s.rowsOf token = []) :
    (service.ValidateSession memQueries token s).1 = .error .ErrInvalidSession := by
  have hdead2 : s.sessions.filter (fun r => r.Token == token) = [] := hdead
  rw [ValidateSession_mem, find?_and_filter, hdead2]
  rfl

/-- Validation of a token whose only row belongs to a user of the store. -/
theorem ValidateSession_live (token : String) (s : Store) (u : User) (expires : Nat)
    (users0 extra : List User)
    (hrows : s.rowsOf token = [⟨u.ID, token, ⟨expires, true⟩⟩])
    (husers : s.users = users0 ++ extra)
    (hfind : users0.find? (fun x => x.ID == u.ID) = some u) :
    (service.ValidateSession memQueries token s).1 =
      if s.now < expires then .ok ⟨formatUUID u.ID, u.Email⟩ else .error .ErrInvalidSession := by
  have hrows2 : s.sessions.filter (fun r => r.Token == token) = [⟨u.ID, token, ⟨expires, true⟩⟩] :=
    hrows
  rw [ValidateSession_mem, find?_and_filter, hrows2, husers]
  by_cases hlt : s.now < expires
  · simp [List.find?_cons, hlt, List.find?_append, hfind]
  · simp [List.find?_cons, hlt]

/-! ## Properties: the session lifecycle -/

/-- C3: over the in-memory store with distinct user ids, after a successful
Login that returned token t and an AuthUser, ValidateSession(t) returns that
same AuthUser (same id, same email) after any sequence of later events that
contains no Logout(t), as long as the clock is before the login time plus
SessionDuration, and fails with ErrInvalidSession once the clock has reached
it; and after Logout(t), whatever came before it, ValidateSession(t) fails
with ErrInvalidSession through every later sequence of events in which no login
draws the token t again. -/
theorem session_lifecycle (b : Bcrypt) (s s1 : Store) (src : RandSource) (params : LoginParams)
    (res : LoginResult)
    (hids : s.idsDistinct)
    (hlogin : service.Login memQueries b s.now src params s = (.ok res, s1)) :
    (∀ ops, (∀ op ∈ ops, op.isLogoutOf res.SessionToken = false) →
      ((run b ops s1).now < s.now + SessionDuration →
        (service.ValidateSession memQueries res.SessionToken (run b ops s1)).1 = .ok res.User) ∧
      (s.now + SessionDuration ≤ (run b ops s1).now →
        (service.ValidateSession memQueries res.SessionToken (run b ops s1)).1 =
          .error .ErrInvalidSession)) ∧
    (∀ ops1 ops2, (∀ op ∈ ops2, op.draws res.SessionToken = false) →
      (service.ValidateSession memQueries res.SessionToken
        (run b (ops1 ++ Op.logout res.SessionToken :: ops2) s1)).1 =
        .error .ErrInvalidSession) := by
  rw [Login_mem] at hlogin
  cases hf : s.users.find? (fun u => u.Email == params.Email) with
  | none => simp [hf] at hlogin
  | some u =>
    cases hc : b.CompareHashAndPassword u.PasswordHash params.Password with
    | some e => simp [hf, hc] at hlogin
    | none =>
      rcases hg : generateSessionToken src with ⟨token, _ | err⟩
      swap
      · simp [hf, hc, hg] at hlogin
      by_cases hany : s.sessions.any (fun r => r.Token == token) = true
      · simp [hf, hc, hg, hany] at hlogin
      have hany2 : s.sessions.any (fun r => r.Token == token) = false := by simpa using hany
      simp only [hf, hc, hg, hany, Prod.mk.injEq, Except.ok.injEq] at hlogin
      rw [if_neg (by simp)] at hlogin
      simp only [Prod.mk.injEq, Except.ok.injEq] at hlogin
      obtain ⟨hres, hs1⟩ := hlogin
      subst hres
      have hrows1 : s1.rowsOf token = [⟨u.ID, token, ⟨s.now + SessionDuration, true⟩⟩] := by
        rw [← hs1]
        simp [Store.rowsOf, List.filter_append, filter_nil_of_any_false _ _ hany2]
      have husers1 : s1.users = s.users := by rw [← hs1]
      have hnow1 : s1.now = s.now := by rw [← hs1]
      have hfind : s.users.find? (fun x => x.ID == u.ID) = some u :=
        find?_id_of_nodup s.users u hids (List.mem_of_find?_eq_some hf)
      refine ⟨?_, ?_⟩
      · intro ops hops
        have hlive : s1.rowsOf token ≠ [] := by rw [hrows1]; simp
        obtain ⟨hr, _, extra, hu⟩ := run_live b token ops s1 hops hlive
        rw [hrows1] at hr
        rw [husers1] at hu
        have hv := ValidateSession_live token (run b ops s1) u (s.now + SessionDuration)
          s.users extra hr hu hfind
        refine ⟨fun hlt => ?_, fun hge => ?_⟩
        · rw [hv, if_pos hlt]
        · rw [hv, if_neg (by omega)]
      · intro ops1 ops2 hops
        rw [run_append]
        simp only [run]
        exact ValidateSession_dead token _
          (run_dead b token ops2 _ hops (step_logout_rows b token _))

/-- The lifecycle of the sample account's session: valid five nanoseconds after
the login and after the logout of another token, invalid once seven days have
passed, invalid after its own logout. -/
theorem session_lifecycle_witness :
    sampleStore.idsDistinct ∧
    service.Login memQueries sampleBcrypt sampleStore.now (.ok sampleBytes)
      ⟨sampleEmail, samplePassword⟩ sampleStore = (.ok ⟨sampleUser, sampleToken⟩, sampleSession) ∧
    (service.ValidateSession memQueries sampleToken
      (run sampleBcrypt [.tick 5, .logout "ffff"] sampleSession)).1 = .ok sampleUser ∧
    (service.ValidateSession memQueries sampleToken
      (run sampleBcrypt [.tick SessionDuration] sampleSession)).1 = .error .ErrInvalidSession ∧
    (service.ValidateSession memQueries sampleToken
      (run sampleBcrypt ([.tick 5] ++ Op.logout sampleToken :: [.validate sampleToken])
        sampleSession)).1 = .error .ErrInvalidSession :=
  ⟨by unfold Store.idsDistinct; decide,
   by decide,
   ((session_lifecycle sampleBcrypt sampleStore sampleSession (.ok sampleBytes)
      ⟨sampleEmail, samplePassword⟩ ⟨sampleUser, sampleToken⟩
      (by unfold Store.idsDistinct; decide) (by decide)).1
      [.tick 5, .logout "ffff"] (by decide)).1 (by decide),
   ((session_lifecycle sampleBcrypt sampleStore sampleSession (.ok sampleBytes)
      ⟨sampleEmail, samplePassword⟩ ⟨sampleUser, sampleToken⟩
      (by unfold Store.idsDistinct; decide) (by decide)).1
      [.tick SessionDuration] (by decide)).2 (by decide),
   (session_lifecycle sampleBcrypt sampleStore sampleSession (.ok sampleBytes)
      ⟨sampleEmail, samplePassword⟩ ⟨sampleUser, sampleToken⟩
      (by unfold Store.idsDistinct; decide) (by decide)).2
      [.tick 5] [.validate sampleToken] (by decide)⟩

end Auth
